import Mathlib

/-!
Verification development for the directory user cache and facade module
(src/user.js). The module is a promise-returning convenience layer over an
external LDAP/Active-Directory client: user-lifecycle operations, a
per-username result cache with explicit invalidation on mutation, and
distinguished-name (DN) string manipulation.

The embedding is shallow and sequential: JavaScript strings are lists of
characters, records are association lists from attribute name to value, the
cache is an association list from key to record, and each operation is a pure
function from an environment (the external collaborators: directory client,
configuration, credential encoder) and a cache to a result, the updated cache,
and a trace of the external directory calls it issued. Promise resolution is
the Except.ok case, promise rejection the Except.error case. Math.random is
modelled as a stream of rational draws in the unit interval.

Collaborator code that is not part of the provided source (the result shaper
api.processResults, the attribute-replace helper, the location normalizer
util/parseLocation, the credential encoder and SSHA hash) is modelled from the
specification; each such definition carries a doc comment saying so.
-/

namespace AD

/-- JavaScript strings are modelled as lists of characters. -/
abbrev Str := List Char

/-- Embed a Lean string literal as a model string. -/
def str (s : String) : Str := s.data

/-- A directory attribute value: a string, an array of strings, a number, or a
boolean (the shapes that appear in the source). -/
inductive AttrVal where
  | str (s : Str)
  | strs (l : List Str)
  | int (n : Int)
  | bool (b : Bool)
deriving DecidableEq

/-- A sparse user record: attribute name to value, as delivered by or sent to
the directory client. The empty record is the "not found" sentinel. -/
abbrev Record := List (Str × AttrVal)

/-- The users section of the result cache: normalized username to record. -/
abbrev Cache := List (Str × Record)

/-- First binding for a key in an association list (JavaScript property read). -/
def assocGet {β : Type} : List (Str × β) → Str → Option β
  | [], _ => none
  | (k', v) :: rest, k => if k' = k then some v else assocGet rest k

/-- Set a key in an association list, updating the existing binding in place or
appending a new one (JavaScript property write). -/
def assocSet {β : Type} : List (Str × β) → Str → β → List (Str × β)
  | [], k, v => [(k, v)]
  | (k', v') :: rest, k, v => if k' = k then (k, v) :: rest else (k', v') :: assocSet rest k v

/-- Remove a key from an association list (JavaScript delete). -/
def assocDel {β : Type} : List (Str × β) → Str → List (Str × β)
  | [], _ => []
  | (k', v') :: rest, k => if k' = k then assocDel rest k else (k', v') :: assocDel rest k

/-- Characters treated as whitespace by String.trim. -/
def isWsChar (c : Char) : Bool :=
  c == ' ' || c == '\t' || c == '\n' || c == '\r' || c == '\x0b' || c == '\x0c'

/-- JavaScript String.trim: strip leading and trailing whitespace. -/
def jsTrim (s : Str) : Str :=
  ((s.dropWhile isWsChar).reverse.dropWhile isWsChar).reverse

/-- Fuel-driven splitter; the fuel is an upper bound on the input length, so
the fuel-exhausted branch is never taken at the call below. -/
def jsSplitAux (sep : Str) : Nat → Str → List Str
  | _, [] => [[]]
  | 0, s => [s]
  | fuel + 1, c :: rest =>
    if sep ≠ [] ∧ sep.isPrefixOf (c :: rest) then
      [] :: jsSplitAux sep fuel ((c :: rest).drop sep.length)
    else
      match jsSplitAux sep fuel rest with
      | h :: t => (c :: h) :: t
      | [] => [[c]]

/-- JavaScript String.split with a non-empty separator string. -/
def jsSplit (sep : Str) (s : Str) : List Str := jsSplitAux sep s.length s

/-- Fuel-driven global replace; the fuel is an upper bound on the input length,
so the fuel-exhausted branch is never taken at the call below. -/
def replaceSeqAux (pat rep : Str) : Nat → Str → Str
  | _, [] => []
  | 0, s => s
  | fuel + 1, c :: rest =>
    if pat ≠ [] ∧ pat.isPrefixOf (c :: rest) then
      rep ++ replaceSeqAux pat rep fuel ((c :: rest).drop pat.length)
    else
      c :: replaceSeqAux pat rep fuel rest

/-- JavaScript String.replace with a global pattern: replace every
non-overlapping occurrence, scanning left to right. -/
def replaceSeq (pat rep : Str) (s : Str) : Str := replaceSeqAux pat rep s.length s

/-- JavaScript Array.join with a one-character separator. -/
def joinChar (c : Char) : List Str → Str
  | [] => []
  | [x] => x
  | x :: y :: rest => x ++ c :: joinChar c (y :: rest)

/-- Substring test (String.indexOf(pat) > -1). -/
def containsSeq (pat : Str) (s : Str) : Bool :=
  (List.range (s.length + 1)).any (fun i => pat.isPrefixOf (s.drop i))

/-- Decimal digits of a natural number, fuel-driven (the fuel n + 1 always
suffices). -/
def natToStrAux : Nat → Nat → Str
  | 0, _ => []
  | fuel + 1, n => if n < 10 then [Nat.digitChar n] else natToStrAux fuel (n / 10) ++ [Nat.digitChar (n % 10)]

/-- Decimal rendering of a natural number. -/
def natToStr (n : Nat) : Str := natToStrAux (n + 1) n

/-- Decimal rendering of an integer. -/
def intToStr (n : Int) : Str := if n < 0 then '-' :: natToStr n.natAbs else natToStr n.toNat

/-- JavaScript string coercion of an attribute value, as performed by template
literals: strings pass through, arrays join with commas, numbers render in
decimal, booleans render as true or false. -/
def jsToStr : AttrVal → Str
  | .str s => s
  | .strs l => joinChar ',' l
  | .int n => intToStr n
  | .bool b => if b then str "true" else str "false"

/-- JavaScript string coercion of a possibly-undefined value: undefined
renders as the string undefined. -/
def jsToStrOpt (o : Option AttrVal) : Str := (o.map jsToStr).getD (str "undefined")

/-- Read an attribute expected to hold a string; a missing or non-string
attribute reads as none (the source would coerce or throw, which no claim
exercises). -/
def getStrAttr (r : Record) (k : Str) : Option Str :=
  match assocGet r k with
  | some (AttrVal.str s) => some s
  | _ => none

/-- JavaScript falsy-or-blank test used by the source validation guards:
undefined, the empty string, or a whitespace-only string. -/
def jsFalsyOrBlank (o : Option Str) : Bool :=
  match o with
  | none => true
  | some s => s.isEmpty || (jsTrim s).isEmpty

/-- Character class of the email pattern local and domain parts:
ASCII letters, digits, underscore, hyphen, dot. -/
def isEmailNameChar (c : Char) : Bool :=
  c.isAlpha || c.isDigit || c == '_' || c == '-' || c == '.'

/-- A valid top-level-domain tail: two to five ASCII letters. -/
def isTldStr (s : Str) : Bool :=
  s.all Char.isAlpha && decide (2 ≤ s.length) && decide (s.length ≤ 5)

/-- Matcher for the part of the source email pattern after the at sign:
one or more name characters, a dot, then a two-to-five-letter tail, anchored
at the end. The seen flag records that at least one name character has been
consumed before the final dot; at a dot the matcher may either end the domain
part (if the remainder is a valid tail) or treat the dot as a name character,
exactly the choices the backtracking regular-expression engine has. -/
def emailTailMatch : Bool → Str → Bool
  | _, [] => false
  | seen, c :: rest =>
    (c == '.' && seen && isTldStr rest) || (isEmailNameChar c && emailTailMatch true rest)

/-- Source isCorrectEmail: false for undefined, empty or whitespace-only
input, otherwise the anchored pattern one-or-more name characters, an at sign,
one-or-more name characters, a dot, and a two-to-five-letter tail. The
name-character class excludes the at sign, so the pattern forces exactly one
at sign in the string. -/
def isCorrectEmail (email : Option Str) : Bool :=
  match email with
  | none => false
  | some s =>
    if s.isEmpty then false
    else if (jsTrim s).isEmpty then false
    else
      match jsSplit (str "@") s with
      | [localPart, rest] =>
        !localPart.isEmpty && localPart.all isEmailNameChar && emailTailMatch false rest
      | _ => false

/-- Source normalizeLocation: undefined, empty or whitespace-only input maps
to the default container path; otherwise the location gains a trailing comma
when it lacks one. -/
def normalizeLocation (userLocation : Option Str) : Str :=
  match userLocation with
  | none => str "CN=Users,"
  | some s =>
    if s.isEmpty then str "CN=Users,"
    else if (jsTrim s).isEmpty then str "CN=Users,"
    else if s.getLast? = some ',' then s
    else s ++ str ","

/-- One Math.random draw, modelled as the rational num / den; a draw is in
the half-open unit interval exactly when num < den. -/
structure Draw where
  num : Nat
  den : Nat
deriving DecidableEq

/-- A draw lies in the half-open unit interval. -/
def Draw.valid (d : Draw) : Prop := d.num < d.den

/-- Source _getRandomIndex: Math.ceil of a random unit-interval draw scaled by
max. For a positive denominator the ceiling of (num * max) / den equals the
Euclidean quotient of num * max + den - 1 by den whenever num * max is
nonnegative, which holds at every call site (the pools are non-empty, so max
is the nonnegative source.length - 1); getRandomIndex_eq_ceil below proves
this rendering against the rational ceiling. -/
def getRandomIndex (d : Draw) (max : Int) : Int :=
  Int.ediv ((d.num : Int) * max + (d.den : Int) - 1) (d.den : Int)

/-- JavaScript character indexing: in range gives the character, out of range
gives undefined. -/
def jsCharAt (s : Str) (i : Int) : Option Char :=
  if 0 ≤ i then s.get? i.toNat else none

/-- Appending an indexing result inside a template literal: a character stays
itself, undefined renders as the string undefined. -/
def jsAt (o : Option Char) : Str :=
  match o with
  | some c => [c]
  | none => str "undefined"

/-- Source _getRandomString: draw length characters from source, each at index
_getRandomIndex(source.length - 1). The draw stream r is consumed at
consecutive offsets, one per loop iteration. -/
def getRandomString (r : Nat → Draw) (source : Str) : Nat → Nat → Str
  | _, 0 => []
  | off, n + 1 =>
    jsAt (jsCharAt source (getRandomIndex (r off) ((source.length : Int) - 1)))
      ++ getRandomString r source (off + 1) n

/-- The specials pool of createPassword. -/
def specials : Str := str "!·$%&/()=?¿_-\x7b\x7d*⁺"

/-- The digits pool of createPassword. -/
def pwDigits : Str := str "0123456789"

/-- The letters pool of createPassword. -/
def pwLetters : Str := str "qwertyuiopasdfghjklñzxcvbnm"

/-- JavaScript toUpperCase on the characters of the letters pool. -/
def upperChar (c : Char) : Char := if c = 'ñ' then 'Ñ' else c.toUpper

/-- Source createPassword: one special character, three digits, two uppercased
letters, three lowercase letters, concatenated in that order. The nine random
draws are consumed left to right. -/
def createPassword (r : Nat → Draw) : Str :=
  let sp := getRandomString r specials 0 1
  let dig := getRandomString r pwDigits 1 3
  let upp := (getRandomString r pwLetters 4 2).map upperChar
  let low := getRandomString r pwLetters 6 3
  sp ++ dig ++ upp ++ low

/-- A directory-client error object (its message property is what the source
inspects). -/
structure DirErr where
  message : Str
deriving DecidableEq

/-- A directory authentication error: the optional lde_message detail and the
stack rendering the source reads. -/
structure AuthErr where
  lde_message : Option Str
  stack : Str
deriving DecidableEq

/-- A promise rejection value, covering the shapes the source rejects with:
a bare template string, an object with message and httpStatus, an object with
an error flag, an object with only a message, a passed-through directory
error, and a passed-through authentication error. -/
inductive Rej where
  | strMsg (s : Str)
  | httpErr (message : Str) (code : Nat)
  | errFlag (message : Str)
  | plainMsg (message : Str)
  | dir (e : DirErr)
  | auth (e : AuthErr)
deriving DecidableEq

/-- JavaScript read of err.message coerced to a string, as in the addUser
catch block: a bare string rejection has no message property and reads as
undefined. -/
def rejMessageStr : Rej → Str
  | .strMsg _ => str "undefined"
  | .httpErr m _ => m
  | .errFlag m => m
  | .plainMsg m => m
  | .dir e => e.message
  | .auth _ => str "undefined"

/-- Trace of the external directory-client calls an operation issues. -/
inductive Ev where
  | find (filter : Str)
  | modifyDN (oldDN : Option AttrVal) (newDN : Str)
  | replace (userName : Str) (attrs : Record)
  | addObject (cnRdn : Str) (location : Str) (obj : Record)
  | authenticate (principal : Str) (pass : Str)
deriving DecidableEq

/-- The external collaborators: configuration, directory client, credential
encoder and hash. Directory calls may fail with directory-specific errors. -/
structure Env where
  domain : Str
  baseDN : Str
  find : Str → Except DirErr (List Record)
  modifyDN : Option AttrVal → Str → Except DirErr Unit
  replace : Str → Record → Except DirErr Unit
  addObject : Str → Str → Record → Except DirErr Unit
  authenticate : Str → Str → Option AuthErr × Record
  encodePassword : Str → Str
  ssha : Str → Str

/-- Decidable equality of settled promise values, used to evaluate the model
on concrete inputs. -/
instance {ε α : Type} [DecidableEq ε] [DecidableEq α] : DecidableEq (Except ε α) := fun x y =>
  match x, y with
  | .error a, .error b =>
    if h : a = b then .isTrue (by rw [h]) else .isFalse (by simp [h])
  | .error _, .ok _ => .isFalse (by simp)
  | .ok _, .error _ => .isFalse (by simp)
  | .ok a, .ok b =>
    if h : a = b then .isTrue (by rw [h]) else .isFalse (by simp [h])

/-- Result of one facade operation: the settled promise value, the cache after
the operation, and the trace of directory calls issued. -/
abbrev Res (α : Type) := Except Rej α × Cache × List Ev

/-- Sequencing of promise steps: an error short-circuits, a success feeds the
updated cache to the continuation; traces accumulate in order. -/
def rbind {α β : Type} (x : Res α) (f : α → Cache → Res β) : Res β :=
  match x with
  | (.error e, c, t) => (.error e, c, t)
  | (.ok a, c, t) =>
    match f a c with
    | (r, c', t') => (r, c', t ++ t')

/-- Modelled from the spec: api.processResults (src/util/api.js is not under
the provided source) is the result shaper, "given shaping options and a list
of raw records, returns a transformed list (e.g., field selection)". It is
modelled as per-record field selection when options are given and the
identity when they are absent. -/
def processResults (opts : Option (List Str)) (rs : List Record) : List Record :=
  match opts with
  | none => rs
  | some fields => rs.map (fun r => r.filter (fun kv => fields.contains kv.1))

/-- Strip a domain suffix from a username: the part before the first at sign
when one is present. -/
def stripDomain (u : Str) : Str :=
  if u.contains '@' then (jsSplit (str "@") u).headD [] else u

/-- The directory search filter findUser builds for a lookup key. -/
def userFilter (env : Env) (key : Str) : Str :=
  str "(|(userPrincipalName=" ++ key ++ str "@" ++ env.domain
    ++ str ")(sAMAccountName=" ++ key ++ str "))"

/-- Source findUser: check the cache under the raw input name; on a hit return
the shaped cached record without a directory call. On a miss, strip any
domain suffix to get the key, query the directory, and cache the first match,
or the empty sentinel record when there is none, under the stripped key. The
cache stores the raw first match; shaping applies to the resolved value. -/
def findUser (env : Env) (opts : Option (List Str)) (userName : Str) (cache : Cache) : Res Record :=
  match assocGet cache userName with
  | some cached => (.ok ((processResults opts [cached]).headD []), cache, [])
  | none =>
    let key := stripDomain userName
    let filter := userFilter env key
    match env.find filter with
    | .error e => (.error (.dir e), cache, [.find filter])
    | .ok [] => (.ok [], assocSet cache key [], [.find filter])
    | .ok (u :: rest) =>
      (.ok ((processResults opts (u :: rest)).headD []), assocSet cache key u, [.find filter])

/-- Modelled from the spec: the attribute-replace helper _userReplaceOperation
on the facade object is not under the provided source. Per the spec it issues
the attribute-replace operation of the directory for the named user, and after
a successful write removes the cache entries for both the old key and, when
the write changes userPrincipalName, the new key. -/
def userReplaceOperation (env : Env) (userName : Str) (attrs : Record) (cache : Cache) : Res Unit :=
  match env.replace userName attrs with
  | .error e => (.error (.dir e), cache, [.replace userName attrs])
  | .ok _ =>
    let c1 := assocDel cache userName
    let c2 :=
      match assocGet attrs (str "userPrincipalName") with
      | some v => assocDel c1 (jsToStr v)
      | none => c1
    (.ok (), c2, [.replace userName attrs])

/-- Source setUserPassword: reject a falsy password, otherwise replace
unicodePwd with the encoded credential. -/
def setUserPassword (env : Env) (userName pass : Str) (cache : Cache) : Res Unit :=
  if pass.isEmpty then (.error (.plainMsg (str "No password provided.")), cache, [])
  else userReplaceOperation env userName [(str "unicodePwd", .str (env.encodePassword pass))] cache

/-- Source setUserProperty: a plain attribute-replace. -/
def setUserProperty (env : Env) (userName : Str) (obj : Record) (cache : Cache) : Res Unit :=
  userReplaceOperation env userName obj cache

/-- Source setUserPasswordNeverExpires: the fixed account-control write 66048. -/
def setUserPasswordNeverExpires (env : Env) (userName : Str) (cache : Cache) : Res Unit :=
  userReplaceOperation env userName [(str "userAccountControl", .int 66048)] cache

/-- Source enableUser: the fixed account-control write 512. -/
def enableUser (env : Env) (userName : Str) (cache : Cache) : Res Unit :=
  userReplaceOperation env userName [(str "userAccountControl", .int 512)] cache

/-- Source disableUser: the fixed account-control write 514. -/
def disableUser (env : Env) (userName : Str) (cache : Cache) : Res Unit :=
  userReplaceOperation env userName [(str "userAccountControl", .int 514)] cache

/-- Source unlockUser: the fixed lockoutTime write 0. -/
def unlockUser (env : Env) (userName : Str) (cache : Cache) : Res Unit :=
  userReplaceOperation env userName [(str "lockoutTime", .int 0)] cache

/-- The shared tail of setUserCN and moveUser: the issued rename either
rejects with the directory error, or resolves after deleting the cache entry
under the given key. -/
def renameStep (m : Except DirErr Unit) (c : Cache) (k : Str) (evs : List Ev) : Res Unit :=
  match m with
  | .error e => (.error (.dir e), c, evs)
  | .ok _ => (.ok (), assocDel c k, evs)

/-- Source setUserCN: look the user up, replace the leading RDN of the DN with
the new CN, rename, and on success delete the cache entry under the raw input
name. -/
def setUserCN (env : Env) (userName : Str) (cn : AttrVal) (cache : Cache) : Res Unit :=
  rbind (findUser env none userName cache) (fun u c =>
    let oldDN := assocGet u (str "dn")
    let parts := (jsSplit (str ",") (jsToStrOpt oldDN)).drop 1
    let newDN := joinChar ',' ((str "CN=" ++ jsToStr cn) :: parts)
    renameStep (env.modifyDN oldDN newDN) c userName [.modifyDN oldDN newDN])

/-- Modelled from the spec: util/parseLocation is not under the provided
source. Per the spec a location is a DN fragment normalized to always end
with a separator; modelled as appending the separator when missing. -/
def parseLocation (loc : Str) : Str :=
  if loc.isEmpty then loc
  else if loc.getLast? = some ',' then loc
  else loc ++ str ","

/-- Source moveUser: look the user up, rebuild the destination DN as
CN=(common name),(parsed location)(base DN with dc= uppercased), rename, and
on success delete the cache entry under the raw input name. The source has no
existence check: a missing user yields an undefined old DN and the literal
text undefined inside the new DN, and the rename is still issued. -/
def moveUser (env : Env) (userName location : Str) (cache : Cache) : Res Unit :=
  let loc := parseLocation location
  rbind (findUser env none userName cache) (fun u c =>
    let oldDN := assocGet u (str "dn")
    let base := replaceSeq (str "dc=") (str "DC=") env.baseDN
    let newDN := str "CN=" ++ jsToStrOpt (assocGet u (str "cn")) ++ str "," ++ loc ++ base
    renameStep (env.modifyDN oldDN newDN) c userName [.modifyDN oldDN newDN])

/-- The DN-to-location transform inside getUserLocation: lowercase the RDN
labels, cut at the first base-DN boundary, drop the leaf component, reverse
the remaining chain, join with slashes, render cn= markers as bangs, and strip
ou= labels. -/
def dnToLocation (dn : Str) : Str :=
  let lowered :=
    replaceSeq (str "OU=") (str "ou=")
      (replaceSeq (str "CN=") (str "cn=")
        (replaceSeq (str "DC=") (str "dc=") dn))
  let left := (jsSplit (str ",dc=") lowered).headD []
  replaceSeq (str "ou=") []
    (replaceSeq (str "cn=") (str "!")
      (joinChar '/' (((jsSplit (str ",") left).drop 1).reverse)))

/-- Source getUserLocation: look the user up, reject a missing user with the
structured not-found error, otherwise resolve the transformed DN. -/
def getUserLocation (env : Env) (userName : Str) (cache : Cache) : Res Str :=
  rbind (findUser env none userName cache) (fun u c =>
    if u.length < 1 then (.error (.errFlag (str "User does not exist.")), c, [])
    else (.ok (dnToLocation (jsToStrOpt (assocGet u (str "dn")))), c, []))

/-- Truthiness of the lde_message property of an authentication error: present
and non-empty. -/
def ldeTruthy (e : AuthErr) : Bool :=
  match e.lde_message with
  | some s => !s.isEmpty
  | none => false

/-- Source authenticateUser: delegate to the directory client with the
principal name. An error carrying a truthy lde_message is folded into the
result object as detail and message (the stack up to the first colon) and the
promise resolves; any other error rejects; no error resolves the raw result. -/
def authenticateUser (env : Env) (userName pass : Str) (cache : Cache) : Res Record :=
  let fullUser := userName ++ str "@" ++ env.domain
  match env.authenticate fullUser pass with
  | (some e, out) =>
    if ldeTruthy e then
      let out1 := assocSet out (str "detail") (.str (e.lde_message.getD []))
      let out2 := assocSet out1 (str "message") (.str ((jsSplit (str ":") e.stack).headD []))
      (.ok out2, cache, [.authenticate fullUser pass])
    else (.error (.auth e), cache, [.authenticate fullUser pass])
  | (none, out) => (.ok out, cache, [.authenticate fullUser pass])

/-- The fixed object-class set addUser writes. -/
def objectClassList : List Str :=
  [str "top", str "person", str "organizationalPerson", str "user"]

/-- Source addUser. The validation rejects lack a return in the source, so on
invalid input the promise settles with the first validation rejection while
the body still runs: the password is generated, the caller-supplied record is
mutated (userPassword is set to the hash, objectClass is overwritten), and the
object-create, password-set and enable calls are still issued. The settled
result is the first settlement: a validation rejection when one fired,
otherwise the outcome of the create-set-enable sequence, with thrown errors
mapped in the catch block to the already-exists (400) or creation-error (503)
structured shapes. The second component of the result is the caller-supplied
record after mutation. -/
def addUser (env : Env) (r : Nat → Draw) (userObject : Record) (userLocation : Option Str)
    (cache : Cache) : Except Rej (Record × Str) × Record × Cache × List Ev :=
  let mailV := assocGet userObject (str "mail")
  let emailOk := isCorrectEmail (getStrAttr userObject (str "mail"))
  let samBad := jsFalsyOrBlank (getStrAttr userObject (str "sAMAccountName"))
  let rejects : List Rej :=
    (if emailOk then [] else [.strMsg (str "Incorrect email address: " ++ jsToStrOpt mailV)])
      ++ (if samBad then [.strMsg (str "sAMAccountName not specified")] else [])
  let password := createPassword r
  let obj1 := assocSet userObject (str "userPassword") (.str (env.ssha password))
  let loc := normalizeLocation userLocation
  let obj2 := assocSet obj1 (str "objectClass") (.strs objectClassList)
  let samStr := jsToStrOpt (assocGet obj2 (str "sAMAccountName"))
  let cnRdn := str "CN=" ++ samStr
  let mainRes : Res Unit :=
    match env.addObject cnRdn loc obj2 with
    | .error e => (.error (.dir e), cache, [.addObject cnRdn loc obj2])
    | .ok _ =>
      rbind ((Except.ok (), cache, [Ev.addObject cnRdn loc obj2]) : Res Unit) (fun _ c =>
      rbind (setUserPassword env samStr password c) (fun _ c' =>
      enableUser env samStr c'))
  let catchMap : Rej → Rej := fun e =>
    if containsSeq (str "ENTRY_EXISTS") (rejMessageStr e) then
      .httpErr (str "User " ++ samStr ++ str " already exists.") 400
    else
      .httpErr (str "Error creating user: " ++ rejMessageStr e) 503
  let settled : Except Rej (Record × Str) :=
    match rejects with
    | e :: _ => .error e
    | [] =>
      match mainRes.1 with
      | .error e => .error (catchMap e)
      | .ok _ => .ok (obj2, password)
  (settled, obj2, mainRes.2.1, mainRes.2.2)

/-- The operations list updateUser collects: one single-attribute write per
own property of opts, in property order, with a unicodePwd value passed
through the credential encoder. -/
def mkOperations (env : Env) (opts : List (Str × AttrVal)) : List (Str × AttrVal) :=
  opts.map (fun kv =>
    if kv.1 = str "unicodePwd" then (kv.1, .str (env.encodePassword (jsToStr kv.2))) else kv)

/-- Source go loop of updateUser. Array.pop removes the last element of the
collected operations, so the pending argument here is the collected list in
pop order, that is reversed; updateUser passes operations.reverse. Each step
writes one attribute for the current username, switches the current username
after a userPrincipalName write, deletes the cache entry for the (possibly
new) current username, and continues; a failing write rejects with the
underlying error and stops. The base case deletes the entries for the final
current username and the original username and resolves. -/
def go (env : Env) : List (Str × AttrVal) → Str → Str → Cache → Res Unit
  | [], cur, orig, cache => (.ok (), assocDel (assocDel cache cur) orig, [])
  | op :: pending, cur, orig, cache =>
    match setUserProperty env cur [op] cache with
    | (.error e, c, t) => (.error e, c, t)
    | (.ok _, c, t) =>
      let cur' := if op.1 = str "userPrincipalName" then jsToStr op.2 else cur
      let c' := assocDel c cur'
      match go env pending cur' orig c' with
      | (res, c2, t2) => (res, c2, t ++ t2)

/-- Source updateUser: collect the operations, look the user up, run the
special-cased steps (commonName via setUserCN; passwordExpires mapped to the
never-expires write when strictly false and to enableUser otherwise; enabled
mapped to disableUser when strictly false and to enableUser otherwise), then
apply the collected writes through the go loop. Any failing step rejects with
the underlying error. -/
def updateUser (env : Env) (userName : Str) (opts : List (Str × AttrVal)) (cache : Cache) : Res Unit :=
  let operations := mkOperations env opts
  rbind (findUser env none userName cache) (fun _ c0 =>
  rbind (match assocGet opts (str "commonName") with
         | some cn => setUserCN env userName cn c0
         | none => (.ok (), c0, [])) (fun _ c1 =>
  rbind (match assocGet opts (str "passwordExpires") with
         | some v =>
           if v = AttrVal.bool false then setUserPasswordNeverExpires env userName c1
           else enableUser env userName c1
         | none => (.ok (), c1, [])) (fun _ c2 =>
  rbind (match assocGet opts (str "enabled") with
         | some v =>
           if v = AttrVal.bool false then disableUser env userName c2
           else enableUser env userName c2
         | none => (.ok (), c2, [])) (fun _ c3 =>
  go env operations.reverse userName userName c3))))

/-- Concrete user record used by the evaluation fixtures. -/
def wJaneRec : Record := [(str "dn", .str (str "CN=jane,OU=A,DC=x")), (str "cn", .str (str "jane"))]

/-- A fixture environment whose directory always finds the jane record and
whose write operations all succeed; the encoder and hash are identities. -/
def wEnv : Env where
  domain := str "corp"
  baseDN := str "dc=x"
  find := fun _ => .ok [wJaneRec]
  modifyDN := fun _ _ => .ok ()
  replace := fun _ _ => .ok ()
  addObject := fun _ _ _ => .ok ()
  authenticate := fun _ _ => (none, [])
  encodePassword := fun s => s
  ssha := fun s => s

/-- A fixture environment whose directory finds no user. -/
def wGhostEnv : Env := { wEnv with find := fun _ => .ok [] }

/-- A fixture directory authentication error carrying an lde_message. -/
def wAuthErr : AuthErr where
  lde_message := some (str "80090308: LdapErr: DSID-0C09042F")
  stack := str "InvalidCredentialsError: invalid credentials"

/-- A fixture environment whose authenticate call reports wAuthErr. -/
def wAuthEnv : Env :=
  { wEnv with authenticate := fun _ _ => (some wAuthErr, [(str "success", .bool false)]) }

/-- Cache preloaded with the DN of the specification example for
getUserLocation. -/
def wCacheJaneDN : Cache :=
  [(str "jane", [(str "dn", .str (str "CN=Jane,OU=Sales,OU=EMEA,DC=corp,DC=com"))])]

/-- Cache preloaded with a DN containing a nested CN component. -/
def wCacheBoxDN : Cache :=
  [(str "box", [(str "dn", .str (str "CN=X,CN=Box,OU=A,DC=y"))])]

/-- addUser input with an invalid mail attribute. -/
def wObjBadMail : Record :=
  [(str "mail", .str (str "bad")), (str "sAMAccountName", .str (str "john"))]

/-- addUser input passing validation. -/
def wObjGood : Record :=
  [(str "mail", .str (str "a@b.co")), (str "sAMAccountName", .str (str "john"))]

theorem assocGet_assocDel_self {β : Type} (l : List (Str × β)) (k : Str) :
    assocGet (assocDel l k) k = none := by
  induction l with
  | nil => rfl
  | cons kv rest ih =>
    rcases kv with ⟨k', v⟩
    by_cases h : k' = k
    · simp [assocDel, h, ih]
    · simp [assocDel, assocGet, h, ih]

theorem assocGet_assocDel_none {β : Type} (l : List (Str × β)) (k k' : Str)
    (h : assocGet l k = none) : assocGet (assocDel l k') k = none := by
  induction l with
  | nil => rfl
  | cons kv rest ih =>
    rcases kv with ⟨k0, v⟩
    by_cases h0 : k0 = k
    · simp [assocGet, h0] at h
    · simp only [assocGet, if_neg h0] at h
      by_cases h1 : k0 = k'
      · simp [assocDel, h1, ih h]
      · simp [assocDel, assocGet, h0, h1, ih h]

theorem assocGet_assocSet_self {β : Type} (l : List (Str × β)) (k : Str) (v : β) :
    assocGet (assocSet l k v) k = some v := by
  induction l with
  | nil => simp [assocSet, assocGet]
  | cons kv rest ih =>
    rcases kv with ⟨k0, v0⟩
    by_cases h0 : k0 = k
    · simp [assocSet, assocGet, h0]
    · simp [assocSet, assocGet, h0, ih]

theorem userReplaceOperation_ok_del (env : Env) (u : Str) (attrs : Record) (c : Cache)
    (h : (userReplaceOperation env u attrs c).1 = .ok ()) :
    assocGet (userReplaceOperation env u attrs c).2.1 u = none := by
  unfold userReplaceOperation at h ⊢
  cases hr : env.replace u attrs with
  | error e => rw [hr] at h; exact absurd h (by simp)
  | ok _ =>
    cases hp : assocGet attrs (str "userPrincipalName") with
    | none => simpa [hp] using assocGet_assocDel_self c u
    | some v =>
      simpa [hp] using assocGet_assocDel_none _ _ _ (assocGet_assocDel_self c u)

theorem userReplaceOperation_none_preserved (env : Env) (u : Str) (attrs : Record) (c : Cache)
    (k : Str) (h : assocGet c k = none) :
    assocGet (userReplaceOperation env u attrs c).2.1 k = none := by
  unfold userReplaceOperation
  cases hr : env.replace u attrs with
  | error e => simpa using h
  | ok _ =>
    cases hp : assocGet attrs (str "userPrincipalName") with
    | none => simpa using assocGet_assocDel_none _ _ _ h
    | some v => simpa using assocGet_assocDel_none _ _ _ (assocGet_assocDel_none _ _ _ h)

theorem rbind_eq_ok {α β : Type} (x : Res α) (f : α → Cache → Res β) (b : β)
    (h : (rbind x f).1 = .ok b) :
    ∃ a cx, (f a cx).1 = .ok b ∧ (rbind x f).2.1 = (f a cx).2.1 := by
  rcases x with ⟨rx, cx, tx⟩
  cases rx with
  | error e => simp [rbind] at h
  | ok a =>
    rcases hf : f a cx with ⟨rf, cf, tf⟩
    refine ⟨a, cx, ?_, ?_⟩ <;> simp [rbind, hf] at h ⊢ <;> simp [h]

theorem stripDomain_of_no_at (u : Str) (h : u.contains '@' = false) : stripDomain u = u := by
  unfold stripDomain
  rw [h]
  simp

theorem go_none_preserved (env : Env) (l : List (Str × AttrVal)) (k : Str) :
    ∀ (cur orig : Str) (c : Cache), assocGet c k = none →
      assocGet (go env l cur orig c).2.1 k = none := by
  induction l with
  | nil =>
    intro cur orig c h
    exact assocGet_assocDel_none _ _ _ (assocGet_assocDel_none _ _ _ h)
  | cons op pending ih =>
    intro cur orig c h
    rcases hs : setUserProperty env cur [op] c with ⟨rs, cs, ts⟩
    have hcs : assocGet cs k = none := by
      have := userReplaceOperation_none_preserved env cur [op] c k h
      rw [setUserProperty] at hs
      rw [hs] at this
      exact this
    cases rs with
    | error e => simp [go, hs, hcs]
    | ok _ =>
      rcases hg : go env pending
          (if op.1 = str "userPrincipalName" then jsToStr op.2 else cur) orig
          (assocDel cs (if op.1 = str "userPrincipalName" then jsToStr op.2 else cur))
          with ⟨rg, cg, tg⟩
      have := ih (if op.1 = str "userPrincipalName" then jsToStr op.2 else cur) orig
        (assocDel cs (if op.1 = str "userPrincipalName" then jsToStr op.2 else cur))
        (assocGet_assocDel_none _ _ _ hcs)
      rw [hg] at this
      simp [go, hs, hg, this]

theorem go_ok_orig_del (env : Env) (l : List (Str × AttrVal)) :
    ∀ (cur orig : Str) (c : Cache), (go env l cur orig c).1 = .ok () →
      assocGet (go env l cur orig c).2.1 orig = none := by
  induction l with
  | nil =>
    intro cur orig c _
    exact assocGet_assocDel_self _ _
  | cons op pending ih =>
    intro cur orig c h
    rcases hs : setUserProperty env cur [op] c with ⟨rs, cs, ts⟩
    cases rs with
    | error e => rw [go, hs] at h; exact absurd h (by simp)
    | ok _ =>
      rcases hg : go env pending
          (if op.1 = str "userPrincipalName" then jsToStr op.2 else cur) orig
          (assocDel cs (if op.1 = str "userPrincipalName" then jsToStr op.2 else cur))
          with ⟨rg, cg, tg⟩
      rw [go, hs] at h ⊢
      simp only [hg] at h ⊢
      have := ih (if op.1 = str "userPrincipalName" then jsToStr op.2 else cur) orig
        (assocDel cs (if op.1 = str "userPrincipalName" then jsToStr op.2 else cur))
      rw [hg] at this
      exact this (by simpa using h)

theorem go_upn_del (env : Env) (l : List (Str × AttrVal)) (v : AttrVal) :
    ∀ (cur orig : Str) (c : Cache), (go env l cur orig c).1 = .ok () →
      (str "userPrincipalName", v) ∈ l →
      assocGet (go env l cur orig c).2.1 (jsToStr v) = none := by
  induction l with
  | nil => intro cur orig c _ hm; exact absurd hm (by simp)
  | cons op pending ih =>
    intro cur orig c h hm
    rcases hs : setUserProperty env cur [op] c with ⟨rs, cs, ts⟩
    cases rs with
    | error e => rw [go, hs] at h; exact absurd h (by simp)
    | ok _ =>
      rcases hg : go env pending
          (if op.1 = str "userPrincipalName" then jsToStr op.2 else cur) orig
          (assocDel cs (if op.1 = str "userPrincipalName" then jsToStr op.2 else cur))
          with ⟨rg, cg, tg⟩
      rw [go, hs] at h ⊢
      simp only [hg] at h ⊢
      rcases List.mem_cons.mp hm with heq | hmem
      · subst heq
        have hcur : (if (str "userPrincipalName", v).1 = str "userPrincipalName"
            then jsToStr (str "userPrincipalName", v).2
            else cur) = jsToStr v := by simp
        rw [hcur] at hg
        have := go_none_preserved env pending (jsToStr v) (jsToStr v) orig
          (assocDel cs (jsToStr v)) (assocGet_assocDel_self _ _)
        rw [hg] at this
        simpa [hcur] using this
      · have := ih (if op.1 = str "userPrincipalName" then jsToStr op.2 else cur) orig
          (assocDel cs (if op.1 = str "userPrincipalName" then jsToStr op.2 else cur))
          (by rw [hg]; simpa using h) hmem
        rw [hg] at this
        simpa using this

theorem getRandomIndex_eq_ceil (d : Draw) (hd : 0 < d.den) (max : Int) :
    getRandomIndex d max = Int.ceil (((d.num : ℚ) * (max : ℚ)) / (d.den : ℚ)) := by
  have hb : (0 : Int) < (d.den : Int) := by exact_mod_cast hd
  have hden : (0 : ℚ) < (d.den : ℚ) := by exact_mod_cast hd
  obtain ⟨q, hqdef⟩ : ∃ q : Int,
      Int.ediv ((d.num : Int) * max + (d.den : Int) - 1) (d.den : Int) = q := ⟨_, rfl⟩
  obtain ⟨r, hrdef⟩ : ∃ r : Int,
      Int.emod ((d.num : Int) * max + (d.den : Int) - 1) (d.den : Int) = r := ⟨_, rfl⟩
  have hq : (d.den : Int) * q + r = (d.num : Int) * max + (d.den : Int) - 1 := by
    rw [← hqdef, ← hrdef]
    exact Int.ediv_add_emod _ _
  have hr0 : 0 ≤ r := by
    rw [← hrdef]
    exact Int.emod_nonneg _ (ne_of_gt hb)
  have hrb : r < (d.den : Int) := by
    rw [← hrdef]
    exact Int.emod_lt_of_pos _ hb
  have hqQ : (d.den : ℚ) * (q : ℚ) + (r : ℚ) = (d.num : ℚ) * (max : ℚ) + (d.den : ℚ) - 1 := by
    exact_mod_cast hq
  have hr0Q : (0 : ℚ) ≤ (r : ℚ) := by exact_mod_cast hr0
  have hrb1 : r ≤ (d.den : Int) - 1 := by omega
  have hrb1Q : (r : ℚ) ≤ (d.den : ℚ) - 1 := by exact_mod_cast hrb1
  have hgi : getRandomIndex d max = q := hqdef
  symm
  rw [hgi, Int.ceil_eq_iff]
  constructor
  · rw [lt_div_iff hden]
    linarith
  · rw [div_le_iff hden]
    linarith

theorem getRandomIndex_bounds (d : Draw) (hd : d.valid) (max : Int) (hm : 0 ≤ max) :
    0 ≤ getRandomIndex d max ∧ getRandomIndex d max ≤ max := by
  have hb : (0 : Int) < (d.den : Int) := by
    have := hd; unfold Draw.valid at this; omega
  have hnum : (d.num : Int) ≤ (d.den : Int) := by
    have := hd; unfold Draw.valid at this; omega
  set a : Int := (d.num : Int) * max with ha
  set b : Int := (d.den : Int) with hbdef
  set q : Int := Int.ediv (a + b - 1) b with hqdef
  set r : Int := Int.emod (a + b - 1) b with hrdef
  have hq : b * q + r = a + b - 1 := Int.ediv_add_emod (a + b - 1) b
  have hr0 : 0 ≤ r := Int.emod_nonneg (a + b - 1) (ne_of_gt hb)
  have hrb : r < b := Int.emod_lt_of_pos (a + b - 1) hb
  have ha0 : 0 ≤ a := mul_nonneg (by positivity) hm
  have hup : a ≤ b * max := by
    rw [ha, hbdef]
    exact mul_le_mul_of_nonneg_right hnum hm
  have hgoal : getRandomIndex d max = q := rfl
  rw [hgoal]
  constructor
  · have hbq : 0 ≤ b * q := by linarith
    exact (mul_nonneg_iff_of_pos_left hb).mp hbq
  · have hlt : b * q < b * (max + 1) := by nlinarith
    have := lt_of_mul_lt_mul_left hlt (le_of_lt hb)
    omega

theorem getRandomString_spec (r : Nat → Draw) (h : ∀ i, (r i).valid) (source : Str)
    (hsrc : source ≠ []) : ∀ (len off : Nat),
    (getRandomString r source off len).length = len
      ∧ ∀ c ∈ getRandomString r source off len, c ∈ source := by
  intro len
  induction len with
  | zero =>
    intro off
    exact ⟨rfl, fun c hc => absurd hc (by simp [getRandomString])⟩
  | succ n ih =>
    intro off
    have hlen : 0 < source.length := List.length_pos.mpr hsrc
    have hm : (0 : Int) ≤ (source.length : Int) - 1 := by omega
    obtain ⟨h0, h1⟩ := getRandomIndex_bounds (r off) (h off) ((source.length : Int) - 1) hm
    set i : Int := getRandomIndex (r off) ((source.length : Int) - 1) with hi
    have hidx : i.toNat < source.length := by omega
    have hchar : jsCharAt source i = some (source.get ⟨i.toNat, hidx⟩) := by
      unfold jsCharAt
      rw [if_pos h0, List.get?_eq_get hidx]
    constructor
    · simp [getRandomString, hchar, jsAt, (ih (off + 1)).1]
    · intro c hc
      simp only [getRandomString, hchar, jsAt, List.mem_append, List.mem_singleton] at hc
      rcases hc with rfl | hc
      · exact List.get_mem _ _ _
      · exact (ih (off + 1)).2 c hc

theorem createPassword_isEmpty_false (r : Nat → Draw) :
    (createPassword r).isEmpty = false := by
  unfold createPassword
  cases hc : jsCharAt specials (getRandomIndex (r 0) ((specials.length : Int) - 1)) <;>
    simp [getRandomString, jsAt, hc, str]

/-- Claim C9: isCorrectEmail returns false for empty, whitespace-only and
malformed strings, true for strings shaped like a@b.co; at the boundary it
rejects a@b (no top-level domain) and accepts a.b@c-d.com. -/
theorem isCorrectEmail_boundary_cases :
    isCorrectEmail (some (str "")) = false
    ∧ isCorrectEmail (some (str "   ")) = false
    ∧ isCorrectEmail (some (str "a@b")) = false
    ∧ isCorrectEmail (some (str "not an email")) = false
    ∧ isCorrectEmail (some (str "a@@b.co")) = false
    ∧ isCorrectEmail (some (str "a@b.co")) = true
    ∧ isCorrectEmail (some (str "a.b@c-d.com")) = true := by
  decide

/-- Claim C7: getUserLocation on the DN CN=Jane,OU=Sales,OU=EMEA,DC=corp,DC=com
resolves with EMEA/Sales: the base-DN tail is stripped, the leaf CN component
dropped, the OU chain reversed into root-to-leaf order and joined with
slashes, OU labels stripped; and an embedded CN marker renders as a bang. -/
theorem getUserLocation_formats_ou_chain :
    (getUserLocation wEnv (str "jane") wCacheJaneDN).1 = .ok (str "EMEA/Sales")
    ∧ (getUserLocation wEnv (str "box") wCacheBoxDN).1 = .ok (str "A/!Box") := by
  decide

/-- Claim C3, the code behavior at the failing input: when the directory
returns no user, moveUser does not reject with the structured not-found error
and does not skip the rename; it resolves successfully and issues the
DN-rename with an undefined old DN and the literal text undefined inside the
new DN. -/
theorem moveUser_missing_user_invokes_rename :
    (moveUser wGhostEnv (str "ghost") (str "OU=B,") []).1 = .ok ()
    ∧ (moveUser wGhostEnv (str "ghost") (str "OU=B,") []).2.2
        = [Ev.find (userFilter wGhostEnv (str "ghost")),
           Ev.modifyDN none (str "CN=undefined,OU=B,DC=x")] := by
  decide

/-- Claim C4, the code behavior at the failing input: with an invalid mail
attribute the promise settles with the validation rejection, but because the
validation rejects lack a return the body still runs and issues the
object-create, password-set and enable directory calls (three events, headed
by the object-create). -/
theorem addUser_invalid_email_still_calls_directory :
    (addUser wEnv (fun _ => Draw.mk 0 1) wObjBadMail none []).1
        = .error (.strMsg (str "Incorrect email address: bad"))
    ∧ (addUser wEnv (fun _ => Draw.mk 0 1) wObjBadMail none []).2.2.2.length = 3
    ∧ (addUser wEnv (fun _ => Draw.mk 0 1) wObjBadMail none []).2.2.2.head?
        = some (Ev.addObject (str "CN=john") (str "CN=Users,")
            [(str "mail", .str (str "bad")), (str "sAMAccountName", .str (str "john")),
             (str "userPassword", .str (str "!000QQqqq")),
             (str "objectClass", .strs objectClassList)]) := by
  decide

/-- Claim C1, counterexample: for the user@domain input jane@corp, a findUser
call populates the cache under the lookup key jane, and a subsequent
successful moveUser on the same input resolves without removing that entry
(its delete targets the raw input name), so the pre-mutation record stays
cached under the lookup key. -/
theorem moveUser_domain_form_leaves_lookup_key_cached :
    (moveUser wEnv (str "jane@corp") (str "OU=B,")
        ((findUser wEnv none (str "jane@corp") []).2.1)).1 = .ok ()
    ∧ assocGet (moveUser wEnv (str "jane@corp") (str "OU=B,")
          ((findUser wEnv none (str "jane@corp") []).2.1)).2.1
        (stripDomain (str "jane@corp")) = some wJaneRec := by
  decide

/-- Claim C2, counterexample: for the user@domain input jane@corp, the first
findUser call caches the match under the stripped key jane, yet a second call
with the same input misses (the cache is checked under the raw input name) and
issues another directory query, contradicting the claim that a second call
does not invoke the directory client again. -/
theorem findUser_domain_form_queries_directory_twice :
    assocGet ((findUser wEnv none (str "jane@corp") []).2.1)
        (stripDomain (str "jane@corp")) = some wJaneRec
    ∧ (findUser wEnv none (str "jane@corp")
          ((findUser wEnv none (str "jane@corp") []).2.1)).2.2
        = [Ev.find (userFilter wEnv (str "jane"))] := by
  decide

/-- Claim C8: for every sequence of unit-interval random draws, createPassword
returns a nine-character string laid out as one character from the specials
pool, three from the digits pool, two uppercased letters, and three lowercase
letters, each drawn in range from the configured pools. -/
theorem createPassword_layout (r : Nat → Draw) (h : ∀ i, (r i).valid) :
    (createPassword r).length = 9
    ∧ ∃ sp dig upp low, createPassword r = sp ++ dig ++ upp ++ low
        ∧ sp.length = 1 ∧ dig.length = 3 ∧ upp.length = 2 ∧ low.length = 3
        ∧ (∀ c ∈ sp, c ∈ specials) ∧ (∀ c ∈ dig, c ∈ pwDigits)
        ∧ (∀ c ∈ upp, c ∈ pwLetters.map upperChar) ∧ (∀ c ∈ low, c ∈ pwLetters) := by
  obtain ⟨hsl, hsm⟩ := getRandomString_spec r h specials (by decide) 1 0
  obtain ⟨hdl, hdm⟩ := getRandomString_spec r h pwDigits (by decide) 3 1
  obtain ⟨hul, hum⟩ := getRandomString_spec r h pwLetters (by decide) 2 4
  obtain ⟨hll, hlm⟩ := getRandomString_spec r h pwLetters (by decide) 3 6
  refine ⟨?_, getRandomString r specials 0 1, getRandomString r pwDigits 1 3,
    (getRandomString r pwLetters 4 2).map upperChar, getRandomString r pwLetters 6 3,
    rfl, hsl, hdl, by simpa using hul, hll, hsm, hdm, ?_, hlm⟩
  · simp [createPassword, hsl, hdl, hll, hul]
  · intro c hc
    rcases List.mem_map.mp hc with ⟨c0, hc0, rfl⟩
    exact List.mem_map_of_mem upperChar (hum c0 hc0)

/-- Witness for createPassword_layout at the constant one-half draw stream. -/
theorem createPassword_layout_witness :
    (createPassword (fun _ => Draw.mk 1 2)).length = 9
    ∧ ∃ sp dig upp low, createPassword (fun _ => Draw.mk 1 2) = sp ++ dig ++ upp ++ low
        ∧ sp.length = 1 ∧ dig.length = 3 ∧ upp.length = 2 ∧ low.length = 3
        ∧ (∀ c ∈ sp, c ∈ specials) ∧ (∀ c ∈ dig, c ∈ pwDigits)
        ∧ (∀ c ∈ upp, c ∈ pwLetters.map upperChar) ∧ (∀ c ∈ low, c ∈ pwLetters) :=
  createPassword_layout (fun _ => Draw.mk 1 2) (fun _ => Nat.one_lt_two)

/-- Claim C6: the go loop of updateUser applies the collected writes strictly
sequentially in last-to-first collection order. Appending op to the collected
list makes op the first write applied; its attribute-replace completes and its
cache invalidation (the delete of the possibly renamed current username) is
performed on the state handed to the remaining writes; a failing write rejects
with the underlying error, with no further write issued; and the empty base
case deletes the current and original usernames and resolves. -/
theorem updateUser_go_sequential_last_to_first (env : Env) :
    (∀ cur orig cache,
        go env [] cur orig cache = (.ok (), assocDel (assocDel cache cur) orig, []))
    ∧ (∀ (collected : List (Str × AttrVal)) (op : Str × AttrVal) cur orig cache,
        go env ((collected ++ [op]).reverse) cur orig cache =
          match setUserProperty env cur [op] cache with
          | (.error e, c, t) => (.error e, c, t)
          | (.ok _, c, t) =>
            match go env collected.reverse
                (if op.1 = str "userPrincipalName" then jsToStr op.2 else cur) orig
                (assocDel c (if op.1 = str "userPrincipalName" then jsToStr op.2 else cur)) with
            | (res, c2, t2) => (res, c2, t ++ t2)) := by
  constructor
  · intro cur orig cache
    rfl
  · intro collected op cur orig cache
    rw [show (collected ++ [op]).reverse = op :: collected.reverse by simp]
    rfl

theorem renameStep_ok_del (m : Except DirErr Unit) (c : Cache) (k : Str) (evs : List Ev)
    (h : (renameStep m c k evs).1 = .ok ()) :
    assocGet (renameStep m c k evs).2.1 k = none := by
  cases m with
  | error e => simp [renameStep] at h
  | ok _ => simpa [renameStep] using assocGet_assocDel_self c k

/-- Claim C5: authenticateUser resolves rather than rejects on a
directory-level authentication error (one carrying a truthy lde_message),
annotating the result object with the detail and the stack prefix as message;
it rejects exactly for errors without such detail; and with no error it
resolves the raw result. -/
theorem authenticateUser_folds_auth_errors (env : Env) (u p : Str) (c : Cache) :
    (∀ e out s, env.authenticate (u ++ str "@" ++ env.domain) p = (some e, out) →
        e.lde_message = some s → s ≠ [] →
        authenticateUser env u p c
          = (.ok (assocSet (assocSet out (str "detail") (.str s)) (str "message")
                (.str ((jsSplit (str ":") e.stack).headD []))),
             c, [.authenticate (u ++ str "@" ++ env.domain) p]))
    ∧ (∀ e out, env.authenticate (u ++ str "@" ++ env.domain) p = (some e, out) →
        ldeTruthy e = false →
        authenticateUser env u p c
          = (.error (.auth e), c, [.authenticate (u ++ str "@" ++ env.domain) p]))
    ∧ (∀ out, env.authenticate (u ++ str "@" ++ env.domain) p = (none, out) →
        authenticateUser env u p c
          = (.ok out, c, [.authenticate (u ++ str "@" ++ env.domain) p])) := by
  refine ⟨?_, ?_, ?_⟩
  · intro e out s hauth hlde hs
    have htruthy : ldeTruthy e = true := by
      unfold ldeTruthy
      rw [hlde]
      cases s with
      | nil => exact absurd rfl hs
      | cons a l => rfl
    unfold authenticateUser
    dsimp only
    rw [hauth]
    simp [htruthy, hlde]
  · intro e out hauth hfalse
    unfold authenticateUser
    dsimp only
    rw [hauth]
    simp [hfalse]
  · intro out hauth
    unfold authenticateUser
    dsimp only
    rw [hauth]

/-- Witness for authenticateUser_folds_auth_errors on a concrete environment
reporting an authentication error with detail. -/
theorem authenticateUser_folds_auth_errors_witness :
    authenticateUser wAuthEnv (str "kim") (str "pw") []
      = (.ok (assocSet (assocSet [(str "success", AttrVal.bool false)] (str "detail")
              (.str (str "80090308: LdapErr: DSID-0C09042F"))) (str "message")
            (.str ((jsSplit (str ":") wAuthErr.stack).headD []))),
         [], [.authenticate (str "kim" ++ str "@" ++ wAuthEnv.domain) (str "pw")]) :=
  (authenticateUser_folds_auth_errors wAuthEnv (str "kim") (str "pw") []).1
    wAuthErr [(str "success", AttrVal.bool false)] (str "80090308: LdapErr: DSID-0C09042F")
    rfl rfl (by decide)

/-- Claim C2, amended: findUser checks the cache under the raw input name and
populates it under the stripped key, so the claimed behavior holds for bare
usernames (no at sign): a first call on an unseen bare username queries the
directory and caches the first match or the empty sentinel under that name,
and a second call issues no directory query, returns the identically shaped
record, and leaves the cache unchanged. (For user@domain inputs the check key
and the population key differ; see the counterexample.) -/
theorem findUser_caches_bare_username (env : Env) (opts : Option (List Str)) (U : Str)
    (hU : U.contains '@' = false) (cache : Cache) (hmiss : assocGet cache U = none)
    (users : List Record) (hfind : env.find (userFilter env U) = .ok users) :
    (findUser env opts U ((findUser env opts U cache).2.1)).2.2 = []
    ∧ (findUser env opts U ((findUser env opts U cache).2.1)).1
        = (findUser env opts U cache).1
    ∧ (findUser env opts U ((findUser env opts U cache).2.1)).2.1
        = (findUser env opts U cache).2.1 := by
  have hs : stripDomain U = U := stripDomain_of_no_at U hU
  cases users with
  | nil =>
    have h1 : findUser env opts U cache
        = (.ok [], assocSet cache U [], [.find (userFilter env U)]) := by
      unfold findUser
      rw [hmiss]
      dsimp only
      rw [hs, hfind]
    have hhit : assocGet (assocSet cache U ([] : Record)) U = some [] :=
      assocGet_assocSet_self _ _ _
    have h2 : findUser env opts U (assocSet cache U [])
        = (.ok ((processResults opts [([] : Record)]).headD []), assocSet cache U [], []) := by
      unfold findUser
      rw [hhit]
    have hshape : ((processResults opts [([] : Record)]).headD []) = ([] : Record) := by
      cases opts <;> simp [processResults]
    rw [h1]
    dsimp only
    rw [h2, hshape]
    exact ⟨rfl, rfl, rfl⟩
  | cons u rest =>
    have h1 : findUser env opts U cache
        = (.ok ((processResults opts (u :: rest)).headD []), assocSet cache U u,
           [.find (userFilter env U)]) := by
      unfold findUser
      rw [hmiss]
      dsimp only
      rw [hs, hfind]
    have hhit : assocGet (assocSet cache U u) U = some u := assocGet_assocSet_self _ _ _
    have h2 : findUser env opts U (assocSet cache U u)
        = (.ok ((processResults opts [u]).headD []), assocSet cache U u, []) := by
      unfold findUser
      rw [hhit]
    have hshape : ((processResults opts [u]).headD [])
        = ((processResults opts (u :: rest)).headD []) := by
      cases opts <;> simp [processResults]
    rw [h1]
    dsimp only
    rw [h2, hshape]
    exact ⟨rfl, rfl, rfl⟩

/-- Witness for findUser_caches_bare_username on the bare username jane
against the concrete all-ok environment. -/
theorem findUser_caches_bare_username_witness :
    (findUser wEnv none (str "jane") ((findUser wEnv none (str "jane") []).2.1)).2.2 = []
    ∧ (findUser wEnv none (str "jane") ((findUser wEnv none (str "jane") []).2.1)).1
        = (findUser wEnv none (str "jane") []).1
    ∧ (findUser wEnv none (str "jane") ((findUser wEnv none (str "jane") []).2.1)).2.1
        = (findUser wEnv none (str "jane") []).2.1 :=
  findUser_caches_bare_username wEnv none (str "jane") (by decide) [] rfl [wJaneRec] rfl

theorem mem_mkOperations_upn (env : Env) (opts : List (Str × AttrVal)) (v : AttrVal)
    (hm : (str "userPrincipalName", v) ∈ opts) :
    (str "userPrincipalName", v) ∈ mkOperations env opts := by
  unfold mkOperations
  apply List.mem_map.mpr
  refine ⟨(str "userPrincipalName", v), hm, ?_⟩
  have hne : (str "userPrincipalName") ≠ str "unicodePwd" := by decide
  simp [hne]

/-- Claim C1, amended: for bare usernames (no at sign, so the raw name is the
lookup key), every successful mutating operation removes the cache entry for
the lookup key before its promise resolves; on a userPrincipalName rename
performed through updateUser the new key is removed as well; and a findUser on
a key with no cache entry issues a fresh directory query. (The attribute
replace operations issue their invalidation through the spec-modelled
userReplaceOperation; for user@domain inputs the deletes target the raw input
name and leave the stripped lookup key cached, see the counterexample.) -/
theorem mutation_invalidates_bare_username_cache (env : Env) (U : Str)
    (hU : U.contains '@' = false) (cache : Cache) :
    ((setUserPasswordNeverExpires env U cache).1 = .ok () →
        assocGet (setUserPasswordNeverExpires env U cache).2.1 (stripDomain U) = none)
    ∧ ((enableUser env U cache).1 = .ok () →
        assocGet (enableUser env U cache).2.1 (stripDomain U) = none)
    ∧ ((disableUser env U cache).1 = .ok () →
        assocGet (disableUser env U cache).2.1 (stripDomain U) = none)
    ∧ ((unlockUser env U cache).1 = .ok () →
        assocGet (unlockUser env U cache).2.1 (stripDomain U) = none)
    ∧ (∀ pass, (setUserPassword env U pass cache).1 = .ok () →
        assocGet (setUserPassword env U pass cache).2.1 (stripDomain U) = none)
    ∧ (∀ cn, (setUserCN env U cn cache).1 = .ok () →
        assocGet (setUserCN env U cn cache).2.1 (stripDomain U) = none)
    ∧ (∀ loc, (moveUser env U loc cache).1 = .ok () →
        assocGet (moveUser env U loc cache).2.1 (stripDomain U) = none)
    ∧ (∀ opts, (updateUser env U opts cache).1 = .ok () →
        assocGet (updateUser env U opts cache).2.1 (stripDomain U) = none
        ∧ ∀ v, (str "userPrincipalName", v) ∈ opts →
            assocGet (updateUser env U opts cache).2.1 (jsToStr v) = none)
    ∧ (∀ (c2 : Cache), assocGet c2 U = none →
        (findUser env none U c2).2.2 = [.find (userFilter env U)]) := by
  have hs : stripDomain U = U := stripDomain_of_no_at U hU
  rw [hs]
  refine ⟨?_, ?_, ?_, ?_, ?_, ?_, ?_, ?_, ?_⟩
  · exact fun h => userReplaceOperation_ok_del env U _ cache h
  · exact fun h => userReplaceOperation_ok_del env U _ cache h
  · exact fun h => userReplaceOperation_ok_del env U _ cache h
  · exact fun h => userReplaceOperation_ok_del env U _ cache h
  · intro pass h
    by_cases hp : pass.isEmpty = true
    · rw [setUserPassword, if_pos hp] at h
      exact absurd h (by simp)
    · rw [setUserPassword, if_neg hp] at h ⊢
      exact userReplaceOperation_ok_del env U _ cache h
  · intro cn h
    rw [setUserCN] at h ⊢
    obtain ⟨u, cx, hfok, hcache⟩ := rbind_eq_ok _ _ _ h
    dsimp only at hfok
    rw [hcache]
    dsimp only
    exact renameStep_ok_del _ _ _ _ hfok
  · intro loc h
    rw [moveUser] at h ⊢
    obtain ⟨u, cx, hfok, hcache⟩ := rbind_eq_ok _ _ _ h
    dsimp only at hfok
    rw [hcache]
    dsimp only
    exact renameStep_ok_del _ _ _ _ hfok
  · intro opts h
    rw [updateUser] at h ⊢
    obtain ⟨a1, c1, h1, hc1⟩ := rbind_eq_ok _ _ _ h
    try dsimp only at h1
    obtain ⟨a2, c2, h2, hc2⟩ := rbind_eq_ok _ _ _ h1
    try dsimp only at h2
    obtain ⟨a3, c3, h3, hc3⟩ := rbind_eq_ok _ _ _ h2
    try dsimp only at h3
    obtain ⟨a4, c4, h4, hc4⟩ := rbind_eq_ok _ _ _ h3
    try dsimp only at h4
    rw [hc1]
    try dsimp only
    rw [hc2]
    try dsimp only
    rw [hc3]
    try dsimp only
    rw [hc4]
    try dsimp only
    refine ⟨go_ok_orig_del env _ U U c4 h4, ?_⟩
    intro v hv
    exact go_upn_del env _ v U U c4 h4
      (List.mem_reverse.mpr (mem_mkOperations_upn env opts v hv))
  · intro c2 hmiss
    unfold findUser
    rw [hmiss]
    dsimp only
    rw [hs]
    cases hf : env.find (userFilter env U) with
    | error e => simp [hf]
    | ok users => cases users <;> simp [hf]

/-- Witness for mutation_invalidates_bare_username_cache: a successful
enableUser on the bare username jane leaves no cache entry under its lookup
key. -/
theorem mutation_invalidates_bare_username_cache_witness :
    assocGet (enableUser wEnv (str "jane") []).2.1 (stripDomain (str "jane")) = none :=
  (mutation_invalidates_bare_username_cache wEnv (str "jane") (by decide) []).2.1 (by decide)

/-- Claim C10: for every call passing validation, addUser mutates the
caller-supplied record: userPassword is set to the hash of the generated
password and objectClass is overwritten with the fixed class list (the second
result component is the caller-supplied record after mutation); and when the
directory create and replace operations succeed, the promise resolves with
that same mutated record together with the plaintext generated password. -/
theorem addUser_mutates_userObject_and_resolves (env : Env) (r : Nat → Draw) (obj : Record)
    (loc : Option Str) (cache : Cache)
    (hmail : isCorrectEmail (getStrAttr obj (str "mail")) = true)
    (hsam : jsFalsyOrBlank (getStrAttr obj (str "sAMAccountName")) = false) :
    (addUser env r obj loc cache).2.1
      = assocSet (assocSet obj (str "userPassword") (.str (env.ssha (createPassword r))))
          (str "objectClass") (.strs objectClassList)
    ∧ ((∀ a b o, env.addObject a b o = .ok ()) →
        (∀ u attrs, env.replace u attrs = .ok ()) →
        (addUser env r obj loc cache).1
          = .ok (assocSet (assocSet obj (str "userPassword")
                (.str (env.ssha (createPassword r))))
              (str "objectClass") (.strs objectClassList), createPassword r)) := by
  constructor
  · rfl
  · intro hAdd hRep
    unfold addUser
    simp [hmail, hsam, hAdd, hRep, setUserPassword, userReplaceOperation, enableUser,
      rbind, createPassword_isEmpty_false]

/-- Witness for addUser_mutates_userObject_and_resolves on a valid input
against the concrete all-ok environment. -/
theorem addUser_mutates_userObject_and_resolves_witness :
    (addUser wEnv (fun _ => Draw.mk 0 1) wObjGood none []).1
      = .ok (assocSet (assocSet wObjGood (str "userPassword")
            (.str (wEnv.ssha (createPassword (fun _ => Draw.mk 0 1)))))
          (str "objectClass") (.strs objectClassList),
        createPassword (fun _ => Draw.mk 0 1)) :=
  (addUser_mutates_userObject_and_resolves wEnv (fun _ => Draw.mk 0 1) wObjGood none []
    (by decide) (by decide)).2 (fun _ _ _ => rfl) (fun _ _ => rfl)

end AD
